import Mathlib

/-!
Shallow embedding of the time-sync resolution engine in
`src/ntpServer/main.py` (class `DetailedNTPSync`).

Modelling conventions:

* Python floats (NTP timestamps, offsets, delays) are embedded as `ℚ`;
  `int(x)` is truncation toward zero (`truncTowardZero`).
* Wall-clock instants are embedded as `ℤ` (whole seconds since the Unix
  epoch).  One call of `get_detailed_time` observes a single instant
  `now`; the constant `localOffset` is the host's local-timezone offset
  east of UTC in seconds (`datetime.now()` shows `now + localOffset`,
  `datetime.now(pytz.UTC)` shows `now`).  Sub-second display digits of
  `system_time` (`"%H:%M:%S.%f"[:-4]`) are elided: no claim depends on
  them, and a concrete run fixes them to `.00` anyway under whole-second
  instants.
* The NTP client is an explicit oracle `query : String → Except String
  NTPStats`: `ntp_client.request(server, version=3, timeout=5)` either
  returns a stats record or raises, and the raised message is the
  `String` payload.
* The mutable fields `self.last_response` / `self.last_successful_sync`
  of `DetailedNTPSync` form the `SyncState`; `get_detailed_time` is
  state-passing: it consumes a `SyncState` and produces the next one.
  The ghost field `attempts` of `ResolveOutcome` records the sequence of
  `ntp_client.request` invocations, in order, for the failover claims.
-/

/-- `ntplib.NTPStats` as consumed by `main.py`: transmit timestamp
(`response.tx_time`, fractional epoch seconds), clock offset
(`response.offset`, seconds), round-trip delay (`response.delay`,
seconds) and `response.stratum`. -/
structure NTPStats where
  tx_time : ℚ
  offset : ℚ
  delay : ℚ
  stratum : ℕ
deriving DecidableEq

/-- The `NTPResponse` pydantic model of `main.py` (lines 14-22). -/
structure NTPResponse where
  time_server : String
  received_ntp_time : String
  offset_ms : ℤ
  round_trip_time_ms : ℤ
  stratum : ℕ
  system_time : String
  last_sync : String
  timezone_offset : String
deriving DecidableEq

/-- The mutable sync state of `DetailedNTPSync`: fields
`self.last_response` and `self.last_successful_sync` (lines 33-34).
`last_successful_sync` stores the instant at which the sample was
accepted (the code stores the local-naive `datetime.now()`; the model
stores the underlying instant and applies the local offset only when
formatting, which is equivalent for a fixed local offset). -/
structure SyncState where
  last_response : Option NTPStats
  last_successful_sync : Option ℤ
deriving DecidableEq

/-- `__init__` (lines 33-34): both state fields start empty. -/
def initState : SyncState :=
  { last_response := none, last_successful_sync := none }

/-- `self.primary_server` (line 27). -/
def primary_server : String := "time.nist.gov"

/-- `self.backup_servers` (lines 28-32). -/
def backup_servers : List String :=
  ["pool.ntp.org", "time.google.com", "time.windows.com"]

/-- The candidate list of the failover procedure: primary first, then
the backups in configured order. -/
def candidate_servers : List String := primary_server :: backup_servers

/-- Python `int()` on a real value: truncation toward zero. -/
def truncTowardZero (q : ℚ) : ℤ :=
  if 0 ≤ q then ⌊q⌋ else ⌈q⌉

/-- Two-digit zero padding, as in `strftime` fields and `{:02d}`. -/
def pad2 (n : ℕ) : String :=
  if n < 10 then "0" ++ toString n else toString n

/-- `strftime("%H:%M:%S")` applied to the datetime holding instant `t`
(epoch seconds) shifted into the displayed timezone by the caller. -/
def formatHMS (t : ℤ) : String :=
  let s := t % 86400
  pad2 (s / 3600).toNat ++ ":" ++ pad2 ((s % 3600) / 60).toNat ++ ":" ++ pad2 (s % 60).toNat

/-- `strftime('%z')` for a whole-minute UTC offset: sign then `HHMM`. -/
def formatPctZ (off : ℤ) : String :=
  (if 0 ≤ off then "+" else "-") ++ pad2 (off.natAbs / 3600) ++ pad2 ((off.natAbs % 3600) / 60)

/-- The `HTTPException` raised on line 94: status code and detail. -/
structure HTTPException where
  status_code : ℕ
  detail : String
deriving DecidableEq

/-- The `NTPResponse` built on the primary-success path (lines 58-67):
`received_ntp_time` renders `tx_time` in UTC (`fromtimestamp(...,
pytz.UTC)`), `system_time` uses `datetime.now(pytz.UTC)`, `last_sync`
renders the just-stored local `datetime.now()`, and `timezone_offset`
is the local `%z` label. -/
def mkPrimaryResponse (r : NTPStats) (now localOffset : ℤ) : NTPResponse :=
  { time_server := primary_server
    received_ntp_time := formatHMS ⌊r.tx_time⌋
    offset_ms := truncTowardZero (r.offset * 1000)
    round_trip_time_ms := truncTowardZero (r.delay * 1000)
    stratum := r.stratum
    system_time := formatHMS now
    last_sync := formatHMS (now + localOffset)
    timezone_offset := formatPctZ localOffset }

/-- The `NTPResponse` built on a backup-success path (lines 81-90):
`received_ntp_time` uses `datetime.fromtimestamp(response.tx_time)`
with no timezone, i.e. the local timezone, so `tx_time` is shifted by
`localOffset`; `system_time` and `last_sync` both use the local
`datetime.now()`. -/
def mkBackupResponse (server : String) (r : NTPStats) (now localOffset : ℤ) : NTPResponse :=
  { time_server := server
    received_ntp_time := formatHMS (⌊r.tx_time⌋ + localOffset)
    offset_ms := truncTowardZero (r.offset * 1000)
    round_trip_time_ms := truncTowardZero (r.delay * 1000)
    stratum := r.stratum
    system_time := formatHMS (now + localOffset)
    last_sync := formatHMS (now + localOffset)
    timezone_offset := formatPctZ localOffset }

/-- The backup loop (lines 72-92): try each backup in order; a bare
`except: continue` moves to the next on any failure; the first success
returns its response immediately.  Returns the list of servers queried
together with the response of the first success, if any. -/
def tryBackups (query : String → Except String NTPStats) (now localOffset : ℤ) :
    List String → List String × Option NTPResponse
  | [] => ([], none)
  | server :: rest =>
    match query server with
    | .ok r => ([server], some (mkBackupResponse server r now localOffset))
    | .error _ =>
      let out := tryBackups query now localOffset rest
      (server :: out.1, out.2)

/-- Result of one `get_detailed_time` call: the next `SyncState`, the
returned response or raised `HTTPException`, and the ghost trace of
servers passed to `ntp_client.request`, in call order. -/
structure ResolveOutcome where
  state : SyncState
  result : Except HTTPException NTPResponse
  attempts : List String

/-- `DetailedNTPSync.get_detailed_time` (lines 36-97): query the
primary; on success store `last_response`/`last_successful_sync`
(lines 47-48) and build the primary response; on failure run the backup
loop without touching the state; if every server fails, raise the 503
`HTTPException` with its fixed detail string (lines 94-97). -/
def get_detailed_time (st : SyncState) (query : String → Except String NTPStats)
    (now localOffset : ℤ) : ResolveOutcome :=
  match query primary_server with
  | .ok response =>
    { state := { last_response := some response, last_successful_sync := some now }
      result := .ok (mkPrimaryResponse response now localOffset)
      attempts := [primary_server] }
  | .error _ =>
    let out := tryBackups query now localOffset backup_servers
    match out.2 with
    | some resp =>
      { state := st, result := .ok resp, attempts := primary_server :: out.1 }
    | none =>
      { state := st
        result := .error { status_code := 503, detail := "Failed to reach any NTP servers" }
        attempts := primary_server :: out.1 }

/-- `DetailedNTPSync.get_sync_status` (lines 99-107).  `now` is the
instant of the call; `time_diff` is `(datetime.now() -
self.last_successful_sync).total_seconds()`, which equals the
difference of the underlying instants. -/
def get_sync_status (st : SyncState) (now : ℤ) : String :=
  match st.last_successful_sync with
  | none => "No sync yet"
  | some t =>
    let time_diff := now - t
    if time_diff < 120 then "Last timestamp received less than 2 minutes ago"
    else "Last sync was " ++ toString time_diff ++ " seconds ago"

/-- The `SyncState` invariant of the spec: `lastSample` is set iff
`lastSyncAt` is set. -/
def stateInv (st : SyncState) : Prop :=
  st.last_response.isSome = st.last_successful_sync.isSome

/-- Modelled from the spec: `OffsetFormatter.format` (spec §4.3) is not
present in `src/` (the source file renders the local offset with
`strftime('%z')` instead); the spec's algorithm is: sign is `+` for a
non-negative offset, magnitude minutes is `abs(offsetSeconds) / 60`
with integer division, hours and minutes split that magnitude, output
`"GMT {sign}{hours:02d}:{minutes:02d}"`. -/
def OffsetFormatter.format (offsetSeconds : ℤ) : String :=
  let sign := if 0 ≤ offsetSeconds then "+" else "-"
  let magnitudeMinutes := offsetSeconds.natAbs / 60
  let hours := magnitudeMinutes / 60
  let minutes := magnitudeMinutes % 60
  "GMT " ++ sign ++ pad2 hours ++ ":" ++ pad2 minutes

/-- The spec's `SyncFailure` taxonomy (spec §7). -/
inductive SyncFailure where
  | invalidTimezone : SyncFailure
  | allServersUnreachable (status_code : ℕ) (detail : String) : SyncFailure
deriving DecidableEq

/-- Outcome of the spec-level `resolve`: next state, result or
`SyncFailure`, and the ghost trace of network calls. -/
structure SpecResolveOutcome where
  state : SyncState
  result : Except SyncFailure NTPResponse
  attempts : List String

/-- Modelled from the spec: the timezone-validating `resolve(timezoneId)`
(spec §4.1 step 6) is not present in `src/` (the source's
`get_detailed_time` takes no timezone argument).  Per the spec, a
`timezoneId` that does not resolve in the timezone table
(`knownZones`) fails with `SyncFailure::InvalidTimezone` without
mutating `SyncState`; the spec allows validation before any network
call, the policy modelled here.  A known timezone delegates to the
engine's failover procedure. -/
def resolveSpec (knownZones : String → Option ℤ) (tzId : String) (st : SyncState)
    (query : String → Except String NTPStats) (now localOffset : ℤ) : SpecResolveOutcome :=
  match knownZones tzId with
  | none => { state := st, result := .error .invalidTimezone, attempts := [] }
  | some _ =>
    let o := get_detailed_time st query now localOffset
    { state := o.state
      result := match o.result with
        | .ok resp => .ok resp
        | .error e => .error (.allServersUnreachable e.status_code e.detail)
      attempts := o.attempts }

/-- Concrete sample for witnesses and counterexamples. -/
def sample0 : NTPStats :=
  { tx_time := 10, offset := 1/2, delay := 3/100, stratum := 2 }

/-- Concrete initial state for witnesses and counterexamples. -/
def st0 : SyncState := initState

/-- Concrete oracle: the primary fails, the first backup succeeds. -/
def q0 : String → Except String NTPStats := fun s =>
  if s = "pool.ntp.org" then .ok sample0 else .error "down"

/-- Concrete oracle: every server fails with message `errA`. -/
def qFailA : String → Except String NTPStats := fun _ => .error "errA"

/-- Concrete oracle: every server fails with message `errB`. -/
def qFailB : String → Except String NTPStats := fun _ => .error "errB"

/-- Concrete oracle: every server succeeds with `sample0`. -/
def qOk : String → Except String NTPStats := fun _ => .ok sample0

/-- Concrete timezone table for the spec-modelled `resolveSpec`. -/
def knownZones0 : String → Option ℤ := fun tz =>
  if tz = "Asia/Kolkata" then some 19800 else none

/-- Concrete synced state (sample accepted at instant 0) for witnesses. -/
def stA : SyncState :=
  { last_response := some sample0, last_successful_sync := some 0 }

/-! ## Run-shape lemmas -/

theorem candidate_servers_nodup : candidate_servers.Nodup := by decide

theorem get_detailed_time_ok (st : SyncState) (query : String → Except String NTPStats)
    (now localOffset : ℤ) (r : NTPStats) (hq : query primary_server = .ok r) :
    get_detailed_time st query now localOffset =
      { state := { last_response := some r, last_successful_sync := some now }
        result := .ok (mkPrimaryResponse r now localOffset)
        attempts := [primary_server] } := by
  simp [get_detailed_time, hq]

theorem get_detailed_time_err_some (st : SyncState) (query : String → Except String NTPStats)
    (now localOffset : ℤ) (e : String) (as : List String) (resp : NTPResponse)
    (hq : query primary_server = .error e)
    (h2 : tryBackups query now localOffset backup_servers = (as, some resp)) :
    get_detailed_time st query now localOffset =
      { state := st, result := .ok resp, attempts := primary_server :: as } := by
  simp [get_detailed_time, hq, h2]

theorem get_detailed_time_err_none (st : SyncState) (query : String → Except String NTPStats)
    (now localOffset : ℤ) (e : String) (as : List String)
    (hq : query primary_server = .error e)
    (h2 : tryBackups query now localOffset backup_servers = (as, none)) :
    get_detailed_time st query now localOffset =
      { state := st
        result := .error { status_code := 503, detail := "Failed to reach any NTP servers" }
        attempts := primary_server :: as } := by
  simp [get_detailed_time, hq, h2]

theorem tryBackups_some (query : String → Except String NTPStats) (now localOffset : ℤ)
    (l : List String) (as : List String) (resp : NTPResponse)
    (h : tryBackups query now localOffset l = (as, some resp)) :
    ∃ pre s r post, l = pre ++ s :: post ∧ as = pre ++ [s] ∧
      (∀ s2 ∈ pre, ∃ e2, query s2 = .error e2) ∧
      query s = .ok r ∧ resp = mkBackupResponse s r now localOffset := by
  induction l generalizing as with
  | nil => simp [tryBackups] at h
  | cons server rest ih =>
    cases hq : query server with
    | ok r =>
      simp [tryBackups, hq] at h
      exact ⟨[], server, r, rest, by simp, by simp [← h.1], by simp, hq, h.2.symm⟩
    | error e =>
      simp only [tryBackups, hq] at h
      obtain ⟨h1, h2⟩ := Prod.mk.injEq .. ▸ h
      obtain ⟨pre, s, r, post, hl, has, hpre, hok, hresp⟩ :=
        ih ((tryBackups query now localOffset rest).1) (by rw [← h2])
      refine ⟨server :: pre, s, r, post, by simp [hl], by simp [← h1, has], ?_, hok, hresp⟩
      intro s2 hs2
      rcases List.mem_cons.mp hs2 with h' | h'
      · exact ⟨e, h' ▸ hq⟩
      · exact hpre s2 h'

theorem tryBackups_none (query : String → Except String NTPStats) (now localOffset : ℤ)
    (l : List String) (as : List String)
    (h : tryBackups query now localOffset l = (as, none)) :
    as = l ∧ ∀ s ∈ l, ∃ e2, query s = .error e2 := by
  induction l generalizing as with
  | nil => simp [tryBackups] at h; simp [h]
  | cons server rest ih =>
    cases hq : query server with
    | ok r => simp [tryBackups, hq] at h
    | error e =>
      simp only [tryBackups, hq] at h
      obtain ⟨h1, h2⟩ := Prod.mk.injEq .. ▸ h
      obtain ⟨has, hall⟩ := ih ((tryBackups query now localOffset rest).1)
        (by rw [← h2])
      refine ⟨by simp [← h1, has], ?_⟩
      intro s2 hs2
      rcases List.mem_cons.mp hs2 with h' | h'
      · exact ⟨e, h' ▸ hq⟩
      · exact hall s2 h'

/-- C1: for every resolution call, the engine tries the candidate
servers in the fixed configured order — the attempted servers are an
initial segment of `candidate_servers` (primary first, then backups in
list order), each server is tried at most once, every attempted server
before the last one failed, and on a successful result the last
attempted server is the reporting server and its query succeeded.  The
order depends only on the fixed configuration, not on latency or past
failures (it is the same for every `query`, `st`, `now`). -/
theorem C1_failover_fixed_order (st : SyncState) (query : String → Except String NTPStats)
    (now localOffset : ℤ) :
    (∃ k, (get_detailed_time st query now localOffset).attempts = candidate_servers.take k) ∧
    (get_detailed_time st query now localOffset).attempts.Nodup ∧
    (∀ s ∈ (get_detailed_time st query now localOffset).attempts.dropLast,
        ∃ e, query s = .error e) ∧
    ∀ resp, (get_detailed_time st query now localOffset).result = .ok resp →
      (get_detailed_time st query now localOffset).attempts.getLast? = some resp.time_server ∧
      ∃ r, query resp.time_server = .ok r := by
  cases hq : query primary_server with
  | ok r =>
    rw [get_detailed_time_ok st query now localOffset r hq]
    refine ⟨⟨1, rfl⟩, by simp, by simp, ?_⟩
    intro resp hresp
    simp only [Except.ok.injEq] at hresp
    subst hresp
    exact ⟨rfl, r, hq⟩
  | error e =>
    rcases ho : tryBackups query now localOffset backup_servers with ⟨as, o2⟩
    cases o2 with
    | some resp0 =>
      rw [get_detailed_time_err_some st query now localOffset e as resp0 hq ho]
      obtain ⟨pre, s, r, post, hl, has, hpre, hok, hresp0⟩ :=
        tryBackups_some query now localOffset backup_servers as resp0 ho
      subst has
      subst hresp0
      have htake : primary_server :: (pre ++ [s]) = candidate_servers.take (pre.length + 1 + 1) := by
        have h1 : backup_servers.take (pre.length + 1) = pre ++ [s] := by
          rw [hl, List.take_append]
          simp
        rw [candidate_servers, List.take_succ_cons, h1]
      have hd : (primary_server :: (pre ++ [s])).dropLast = primary_server :: pre := by
        rw [show primary_server :: (pre ++ [s]) = (primary_server :: pre) ++ [s] from rfl,
          List.dropLast_concat]
      refine ⟨⟨pre.length + 1 + 1, htake⟩, ?_, ?_, ?_⟩
      · rw [htake]
        exact List.Nodup.sublist (List.take_sublist _ _) candidate_servers_nodup
      · rw [hd]
        intro s2 hs2
        rcases List.mem_cons.mp hs2 with h' | h'
        · exact ⟨e, h' ▸ hq⟩
        · exact hpre s2 h'
      · intro resp hresp
        simp only [Except.ok.injEq] at hresp
        subst hresp
        refine ⟨?_, r, hok⟩
        rw [show primary_server :: (pre ++ [s]) = (primary_server :: pre) ++ [s] from rfl,
          List.getLast?_concat]
        rfl
    | none =>
      rw [get_detailed_time_err_none st query now localOffset e as hq ho]
      obtain ⟨has, hall⟩ := tryBackups_none query now localOffset backup_servers as ho
      subst has
      refine ⟨⟨4, rfl⟩, candidate_servers_nodup, ?_, ?_⟩
      · intro s2 hs2
        have hs2' : s2 ∈ primary_server :: backup_servers := List.dropLast_subset _ hs2
        rcases List.mem_cons.mp hs2' with h' | h'
        · exact ⟨e, h' ▸ hq⟩
        · exact hall s2 h'
      · intro resp hresp
        simp at hresp

/-- C1 witness: with the concrete oracle `q0` (primary down, first
backup up) the theorem yields, at the concrete run, that the primary
failed, the last attempted server is the reporting backup, and its
query succeeded. -/
theorem C1_failover_fixed_order_witness :
    (∃ e, q0 "time.nist.gov" = Except.error e) ∧
    (get_detailed_time st0 q0 0 0).attempts.getLast? = some "pool.ntp.org" ∧
    ∃ r, q0 "pool.ntp.org" = Except.ok r := by
  have h := C1_failover_fixed_order st0 q0 0 0
  have h3 := h.2.2.1 "time.nist.gov" (by simp [get_detailed_time, q0, tryBackups,
    backup_servers, primary_server, st0, initState])
  have h4 := h.2.2.2 (mkBackupResponse "pool.ntp.org" sample0 0 0) rfl
  exact ⟨h3, h4.1, h4.2⟩

/-- C2 counterexample: with the primary down and the first backup up
(`q0`), the result reports the backup, yet neither `last_response` nor
`last_successful_sync` is updated — the backup-success path returns
without storing the sample, so `SyncState.lastSample.server` is not
updated to the backup as the claim requires. -/
theorem C2_counterexample :
    (get_detailed_time st0 q0 0 0).result =
      .ok (mkBackupResponse "pool.ntp.org" sample0 0 0) ∧
    (mkBackupResponse "pool.ntp.org" sample0 0 0).time_server = "pool.ntp.org" ∧
    (get_detailed_time st0 q0 0 0).state.last_response = none ∧
    (get_detailed_time st0 q0 0 0).state.last_successful_sync = none :=
  ⟨rfl, rfl, rfl, rfl⟩

/-- C2 amended: only a primary-server success updates `SyncState`, and
then both fields are replaced together as a unit; when the primary
fails, `SyncState` is left unchanged even if a backup succeeds, and the
result's reported server equals that successful backup. -/
theorem C2_state_update_on_primary_only (st : SyncState)
    (query : String → Except String NTPStats) (now localOffset : ℤ) :
    (∀ r, query primary_server = .ok r →
        (get_detailed_time st query now localOffset).state =
          { last_response := some r, last_successful_sync := some now }) ∧
    ∀ e, query primary_server = .error e →
      (get_detailed_time st query now localOffset).state = st ∧
      ∀ resp, (get_detailed_time st query now localOffset).result = .ok resp →
        resp.time_server ∈ backup_servers ∧
        ∃ r, query resp.time_server = .ok r ∧
          resp = mkBackupResponse resp.time_server r now localOffset := by
  constructor
  · intro r hq
    rw [get_detailed_time_ok st query now localOffset r hq]
  · intro e hq
    rcases ho : tryBackups query now localOffset backup_servers with ⟨as, o2⟩
    cases o2 with
    | some resp0 =>
      rw [get_detailed_time_err_some st query now localOffset e as resp0 hq ho]
      refine ⟨rfl, ?_⟩
      intro resp hresp
      simp only [Except.ok.injEq] at hresp
      subst hresp
      obtain ⟨pre, s, r, post, hl, has, hpre, hok, hresp0⟩ :=
        tryBackups_some query now localOffset backup_servers as resp0 ho
      subst hresp0
      have hts : (mkBackupResponse s r now localOffset).time_server = s := rfl
      rw [hts]
      refine ⟨?_, r, hok, rfl⟩
      rw [hl]
      exact List.mem_append_right pre (List.mem_cons_self s post)
    | none =>
      rw [get_detailed_time_err_none st query now localOffset e as hq ho]
      refine ⟨rfl, ?_⟩
      intro resp hresp
      simp at hresp

/-- C2 witness: the amended theorem at concrete runs — a primary
success replaces both fields as a unit, and with the primary down the
state is left unchanged. -/
theorem C2_state_update_on_primary_only_witness :
    (get_detailed_time st0 qOk 0 0).state =
      { last_response := some sample0, last_successful_sync := some 0 } ∧
    (get_detailed_time st0 q0 0 0).state = st0 :=
  ⟨(C2_state_update_on_primary_only st0 qOk 0 0).1 sample0 rfl,
    ((C2_state_update_on_primary_only st0 q0 0 0).2 "down" rfl).1⟩

/-- C3 counterexample: two runs in which every server fails, with
different underlying error messages (`errA` vs `errB`), surface the
very same failure value — the raised `HTTPException` carries only the
fixed detail string, so it does not carry the last underlying
`NetworkError`. -/
theorem C3_counterexample :
    (get_detailed_time st0 qFailA 0 0).result = (get_detailed_time st0 qFailB 0 0).result ∧
    qFailA "time.windows.com" = Except.error "errA" ∧
    qFailB "time.windows.com" = Except.error "errB" ∧
    "errA" ≠ "errB" :=
  ⟨rfl, rfl, rfl, by decide⟩

/-- C3 amended: if every configured server fails, the call fails with
the 503 service-unavailable `HTTPException` whose detail is the fixed
string `"Failed to reach any NTP servers"` (the last underlying error
is not carried), and `SyncState` is unchanged from its value before
the call. -/
theorem C3_all_servers_unreachable (st : SyncState)
    (query : String → Except String NTPStats) (now localOffset : ℤ)
    (h : ∀ s ∈ candidate_servers, ∃ e, query s = Except.error e) :
    (get_detailed_time st query now localOffset).result =
      .error { status_code := 503, detail := "Failed to reach any NTP servers" } ∧
    (get_detailed_time st query now localOffset).state = st := by
  obtain ⟨e, hq⟩ := h primary_server (List.mem_cons_self _ _)
  rcases ho : tryBackups query now localOffset backup_servers with ⟨as, o2⟩
  cases o2 with
  | some resp0 =>
    obtain ⟨pre, s, r, post, hl, has, hpre, hok, hresp0⟩ :=
      tryBackups_some query now localOffset backup_servers as resp0 ho
    have hmem : s ∈ candidate_servers := by
      rw [candidate_servers, hl]
      exact List.mem_cons_of_mem _ (List.mem_append_right pre (List.mem_cons_self s post))
    obtain ⟨e2, herr⟩ := h s hmem
    rw [herr] at hok
    simp at hok
  | none =>
    rw [get_detailed_time_err_none st query now localOffset e as hq ho]
    exact ⟨rfl, rfl⟩

/-- C3 witness: the amended theorem at a concrete all-failing run. -/
theorem C3_all_servers_unreachable_witness :
    (get_detailed_time st0 qFailA 0 0).result =
      .error { status_code := 503, detail := "Failed to reach any NTP servers" } ∧
    (get_detailed_time st0 qFailA 0 0).state = st0 :=
  C3_all_servers_unreachable st0 qFailA 0 0 (fun _ _ => ⟨"errA", rfl⟩)

/-- C4: `get_sync_status` returns the never-synced indicator when
`last_successful_sync` is absent; otherwise, with `elapsed = now -
lastSyncAt` seconds, the recently-synced indicator when `elapsed < 120`
and the indicator carrying the elapsed seconds otherwise.  It is a
function of the state and the current instant only, consumes the state
without producing a new one (no mutation) and performs no query. -/
theorem C4_sync_status (st : SyncState) (now t : ℤ) :
    (st.last_successful_sync = none → get_sync_status st now = "No sync yet") ∧
    (st.last_successful_sync = some t → now - t < 120 →
        get_sync_status st now = "Last timestamp received less than 2 minutes ago") ∧
    (st.last_successful_sync = some t → 120 ≤ now - t →
        get_sync_status st now = "Last sync was " ++ toString (now - t) ++ " seconds ago") := by
  refine ⟨?_, ?_, ?_⟩
  · intro h
    simp [get_sync_status, h]
  · intro h hlt
    simp [get_sync_status, h, hlt]
  · intro h hge
    have hnlt : ¬ (now - t < 120) := not_lt.mpr hge
    simp [get_sync_status, h, hnlt]

/-- C4 witness: all three branches at concrete states and instants. -/
theorem C4_sync_status_witness :
    get_sync_status st0 5 = "No sync yet" ∧
    get_sync_status stA 30 = "Last timestamp received less than 2 minutes ago" ∧
    get_sync_status stA 150 = "Last sync was 150 seconds ago" := by
  refine ⟨(C4_sync_status st0 5 0).1 rfl, (C4_sync_status stA 30 0).2.1 rfl (by decide), ?_⟩
  have h := (C4_sync_status stA 150 0).2.2 rfl (by decide)
  exact h.trans (by decide)

/-- C5: the `SyncState` invariant — `last_response` is set iff
`last_successful_sync` is set — holds at engine construction and is
preserved by every `get_detailed_time` call (the only operation that
touches the state; `get_sync_status` consumes the state read-only). -/
theorem C5_state_invariant (st : SyncState) (query : String → Except String NTPStats)
    (now localOffset : ℤ) (h : stateInv st) :
    stateInv initState ∧ stateInv (get_detailed_time st query now localOffset).state := by
  refine ⟨rfl, ?_⟩
  cases hq : query primary_server with
  | ok r =>
    rw [get_detailed_time_ok st query now localOffset r hq]
    rfl
  | error e =>
    rcases ho : tryBackups query now localOffset backup_servers with ⟨as, o2⟩
    cases o2 with
    | some resp0 =>
      rw [get_detailed_time_err_some st query now localOffset e as resp0 hq ho]
      exact h
    | none =>
      rw [get_detailed_time_err_none st query now localOffset e as hq ho]
      exact h

/-- C5 witness: the invariant at the initial state and after a concrete
call. -/
theorem C5_state_invariant_witness :
    stateInv initState ∧ stateInv (get_detailed_time st0 q0 0 0).state :=
  C5_state_invariant st0 q0 0 0 rfl

/-- C6 counterexample: with a local offset of +1 hour, the backup-path
result renders the accepted sample's transmit time as `01:00:10`,
while the UTC interpretation of the same transmit time (what the
primary path renders) is `00:00:10` — so on the backup-success path
the result is not derived from `transmitTime` interpreted as an
absolute UTC instant. -/
theorem C6_counterexample :
    (get_detailed_time st0 q0 0 3600).result =
      .ok (mkBackupResponse "pool.ntp.org" sample0 0 3600) ∧
    (mkBackupResponse "pool.ntp.org" sample0 0 3600).received_ntp_time = "01:00:10" ∧
    formatHMS ⌊sample0.tx_time⌋ = "00:00:10" ∧
    (mkPrimaryResponse sample0 0 3600).received_ntp_time = "00:00:10" ∧
    "01:00:10" ≠ "00:00:10" :=
  ⟨rfl, rfl, rfl, rfl, by decide⟩

/-- C6 amended: every successful result renders the accepted sample's
transmit time, but the interpretation differs by path: the
primary-success path renders it as an absolute UTC instant, while a
backup-success path renders it shifted by the host's local-timezone
offset; the two interpretations coincide only when that offset is
zero. -/
theorem C6_views_utc_only_on_primary (st : SyncState)
    (query : String → Except String NTPStats) (now localOffset : ℤ) :
    ∀ resp, (get_detailed_time st query now localOffset).result = .ok resp →
      ∃ r, query resp.time_server = .ok r ∧
        ((resp.time_server = primary_server ∧
            resp.received_ntp_time = formatHMS ⌊r.tx_time⌋) ∨
          (resp.time_server ∈ backup_servers ∧
            resp.received_ntp_time = formatHMS (⌊r.tx_time⌋ + localOffset))) := by
  cases hq : query primary_server with
  | ok r =>
    rw [get_detailed_time_ok st query now localOffset r hq]
    intro resp hresp
    simp only [Except.ok.injEq] at hresp
    subst hresp
    exact ⟨r, hq, Or.inl ⟨rfl, rfl⟩⟩
  | error e =>
    rcases ho : tryBackups query now localOffset backup_servers with ⟨as, o2⟩
    cases o2 with
    | some resp0 =>
      rw [get_detailed_time_err_some st query now localOffset e as resp0 hq ho]
      intro resp hresp
      simp only [Except.ok.injEq] at hresp
      subst hresp
      obtain ⟨pre, s, r, post, hl, has, hpre, hok, hresp0⟩ :=
        tryBackups_some query now localOffset backup_servers as resp0 ho
      subst hresp0
      refine ⟨r, hok, Or.inr ⟨?_, rfl⟩⟩
      show s ∈ backup_servers
      rw [hl]
      exact List.mem_append_right pre (List.mem_cons_self s post)
    | none =>
      rw [get_detailed_time_err_none st query now localOffset e as hq ho]
      intro resp hresp
      simp at hresp

/-- C6 witness: the amended theorem at the concrete backup-success
run with local offset +1 hour. -/
theorem C6_views_utc_only_on_primary_witness :
    ∃ r, q0 (mkBackupResponse "pool.ntp.org" sample0 0 3600).time_server = Except.ok r ∧
      (((mkBackupResponse "pool.ntp.org" sample0 0 3600).time_server = primary_server ∧
          (mkBackupResponse "pool.ntp.org" sample0 0 3600).received_ntp_time =
            formatHMS ⌊r.tx_time⌋) ∨
        ((mkBackupResponse "pool.ntp.org" sample0 0 3600).time_server ∈ backup_servers ∧
          (mkBackupResponse "pool.ntp.org" sample0 0 3600).received_ntp_time =
            formatHMS (⌊r.tx_time⌋ + 3600))) :=
  C6_views_utc_only_on_primary st0 q0 0 3600 (mkBackupResponse "pool.ntp.org" sample0 0 3600) rfl

/-- C7: the spec-modelled `OffsetFormatter.format` is a total function
on `ℤ` meeting the stated examples, and every non-negative offset
(zero included) gets the `+` sign with zero-padded two-digit fields. -/
theorem C7_offset_formatter :
    OffsetFormatter.format 0 = "GMT +00:00" ∧
    OffsetFormatter.format 19800 = "GMT +05:30" ∧
    OffsetFormatter.format (-14400) = "GMT -04:00" ∧
    ∀ ofs : ℤ, 0 ≤ ofs →
      OffsetFormatter.format ofs =
        "GMT +" ++ pad2 (ofs.natAbs / 60 / 60) ++ ":" ++ pad2 (ofs.natAbs / 60 % 60) := by
  refine ⟨rfl, rfl, rfl, ?_⟩
  intro ofs h
  simp only [OffsetFormatter.format, if_pos h]
  rw [show "GMT " ++ "+" = "GMT +" from rfl]

/-- C7 witness: the sign clause applied at the concrete offset 19800. -/
theorem C7_offset_formatter_witness :
    OffsetFormatter.format 19800 =
      "GMT +" ++ pad2 ((19800:ℤ).natAbs / 60 / 60) ++ ":" ++ pad2 ((19800:ℤ).natAbs / 60 % 60) :=
  C7_offset_formatter.2.2.2 19800 (by decide)

/-- C8: in the spec-modelled timezone-validating `resolve`, a
`timezoneId` that does not resolve in the timezone table fails with
`SyncFailure.invalidTimezone`, leaves `SyncState` unchanged, and
issues no network call (empty attempt trace) — validation happens
before any query, one of the two policies the spec allows, applied
consistently. -/
theorem C8_invalid_timezone (knownZones : String → Option ℤ) (tzId : String)
    (st : SyncState) (query : String → Except String NTPStats) (now localOffset : ℤ)
    (h : knownZones tzId = none) :
    (resolveSpec knownZones tzId st query now localOffset).result = .error .invalidTimezone ∧
    (resolveSpec knownZones tzId st query now localOffset).state = st ∧
    (resolveSpec knownZones tzId st query now localOffset).attempts = [] := by
  simp [resolveSpec, h]

/-- C8 witness: the theorem at the concrete unknown id `Not/AZone`. -/
theorem C8_invalid_timezone_witness :
    (resolveSpec knownZones0 "Not/AZone" st0 qOk 0 0).result = .error .invalidTimezone ∧
    (resolveSpec knownZones0 "Not/AZone" st0 qOk 0 0).state = st0 ∧
    (resolveSpec knownZones0 "Not/AZone" st0 qOk 0 0).attempts = [] :=
  C8_invalid_timezone knownZones0 "Not/AZone" st0 qOk 0 0 rfl

/-- C9: every successful result reports the accepted sample's clock
offset and round-trip delay as integer milliseconds: the raw seconds
multiplied by 1000 and truncated toward zero (Python `int()`), on the
primary-success and backup-success paths alike, discarding
sub-millisecond precision. -/
theorem C9_millisecond_truncation (st : SyncState)
    (query : String → Except String NTPStats) (now localOffset : ℤ) :
    ∀ resp, (get_detailed_time st query now localOffset).result = .ok resp →
      ∃ r, query resp.time_server = .ok r ∧
        resp.offset_ms = truncTowardZero (r.offset * 1000) ∧
        resp.round_trip_time_ms = truncTowardZero (r.delay * 1000) := by
  cases hq : query primary_server with
  | ok r =>
    rw [get_detailed_time_ok st query now localOffset r hq]
    intro resp hresp
    simp only [Except.ok.injEq] at hresp
    subst hresp
    exact ⟨r, hq, rfl, rfl⟩
  | error e =>
    rcases ho : tryBackups query now localOffset backup_servers with ⟨as, o2⟩
    cases o2 with
    | some resp0 =>
      rw [get_detailed_time_err_some st query now localOffset e as resp0 hq ho]
      intro resp hresp
      simp only [Except.ok.injEq] at hresp
      subst hresp
      obtain ⟨pre, s, r, post, hl, has, hpre, hok, hresp0⟩ :=
        tryBackups_some query now localOffset backup_servers as resp0 ho
      subst hresp0
      exact ⟨r, hok, rfl, rfl⟩
    | none =>
      rw [get_detailed_time_err_none st query now localOffset e as hq ho]
      intro resp hresp
      simp at hresp

/-- C9 witness: the theorem at a concrete backup-success run, plus the
concrete millisecond values for `sample0` (offset 0.5 s → 500 ms,
delay 0.03 s → 30 ms) and a truncation example discarding
sub-millisecond precision (1.0007 ms → 1 ms). -/
theorem C9_millisecond_truncation_witness :
    (∃ r, q0 (mkBackupResponse "pool.ntp.org" sample0 0 0).time_server = Except.ok r ∧
      (mkBackupResponse "pool.ntp.org" sample0 0 0).offset_ms =
        truncTowardZero (r.offset * 1000) ∧
      (mkBackupResponse "pool.ntp.org" sample0 0 0).round_trip_time_ms =
        truncTowardZero (r.delay * 1000)) ∧
    truncTowardZero (sample0.offset * 1000) = 500 ∧
    truncTowardZero (sample0.delay * 1000) = 30 ∧
    truncTowardZero ((10007:ℚ)/10000000 * 1000) = 1 := by
  refine ⟨C9_millisecond_truncation st0 q0 0 0 (mkBackupResponse "pool.ntp.org" sample0 0 0) rfl,
    ?_, ?_, ?_⟩
  · norm_num [sample0, truncTowardZero]
  · norm_num [sample0, truncTowardZero]
  · norm_num [truncTowardZero]

/-- C10: at an elapsed time of exactly 120 seconds since the last
successful sync, `get_sync_status` takes the stale branch — the
freshness comparison is strict — returning the elapsed-seconds
indicator, not the recently-synced indicator. -/
theorem C10_freshness_boundary (st : SyncState) (t : ℤ)
    (h : st.last_successful_sync = some t) :
    get_sync_status st (t + 120) = "Last sync was 120 seconds ago" ∧
    get_sync_status st (t + 120) ≠ "Last timestamp received less than 2 minutes ago" := by
  have hnlt : ¬ (t + 120 - t < 120) := by omega
  have h1 : get_sync_status st (t + 120) =
      "Last sync was " ++ toString (t + 120 - t) ++ " seconds ago" := by
    simp [get_sync_status, h, hnlt]
  have h2 : t + 120 - t = (120:ℤ) := by omega
  rw [h1, h2]
  exact ⟨by decide, by decide⟩

/-- C10 witness: the boundary at a concrete synced state (sync at 0,
status at 120). -/
theorem C10_freshness_boundary_witness :
    get_sync_status stA 120 = "Last sync was 120 seconds ago" ∧
    get_sync_status stA 120 ≠ "Last timestamp received less than 2 minutes ago" := by
  have h := C10_freshness_boundary stA 0 rfl
  simpa using h
